import Mathlib

/-!
Shallow embedding of the pill-dispenser controller (src/pill_d_v2.ino).

The embedding covers the parts of the sketch with real logic:
  * the schedule store (global arrays `scheduleHours`, `scheduleMinutes`,
    `alreadyExecuted`, `scheduleCount`, capacity 6);
  * the schedule codec (`saveScheduleToSPIFFS`, the parsing halves of
    `loadScheduleFromSPIFFS` and `fetchScheduleFromAPI`, including the
    Arduino `String::substring` / `String::toInt` (= `atol`) semantics);
  * the boot-time sync logic of `setup` (remote fetch, cache fallback);
  * the per-cycle control logic of `loop` (button press/hold/release state
    machine, mode toggling, manual dispense, schedule matching).

Peripheral I/O (LCD, buzzer, stepper, OTA, web server) is pure output and is
represented by the fields of `CycleOutput`.  JSON documents are modelled as an
inductive `Json` value; a document that is absent, unreadable, or whose
container fails `deserializeJson` is modelled as `Option.none`, since the
sketch returns `false` in all three cases before touching any schedule state.
`millis()` arithmetic is on `unsigned long`, modelled as `Nat` reduced
mod 2^32 at each subtraction (`usub32`), exactly as C unsigned subtraction.
-/

/-! ### Characters and Arduino string primitives -/

/-- C `isdigit`: the character is one of `'0'..'9'` (codes 48..57). -/
def isDigitChar (c : Char) : Bool :=
  48 ≤ c.toNat && c.toNat ≤ 57

/-- C `isspace`: space (32) or one of `'\t' '\n' '\v' '\f' '\r'` (9..13). -/
def isSpaceChar (c : Char) : Bool :=
  c.toNat = 32 || (9 ≤ c.toNat && c.toNat ≤ 13)

/-- Accumulates the value of the leading run of decimal digits, as `atol`
does after sign handling; stops at the first non-digit. -/
def digitsVal : List Char → Nat → Nat
  | c :: cs, acc =>
      if isDigitChar c then digitsVal cs (acc * 10 + (c.toNat - 48)) else acc
  | [], acc => acc

/-- C `atol`, which also implements Arduino `String::toInt`: skip leading
whitespace, then an optional sign, then read a run of decimal digits; a
string with no leading digits yields 0.  (The sketch only ever applies it to
strings of length at most 2, so `long` overflow is out of the modelled
range.) -/
def atol (s : String) : Int :=
  match s.data.dropWhile isSpaceChar with
  | '-' :: cs => - (digitsVal cs 0 : Int)
  | '+' :: cs => (digitsVal cs 0 : Int)
  | cs => (digitsVal cs 0 : Int)

/-- Arduino `String::substring(left, right)`: swaps the bounds if reversed,
clamps `right` to the length, and returns the characters in `[left, right)`
(empty if `left` is past the end). -/
def substr (s : String) (l r : Nat) : String :=
  let left := min l r
  let right := max l r
  if s.length ≤ left then ""
  else String.mk ((s.data.drop left).take (min right s.length - left))

/-- `sprintf "%02d"` applied to an `int`: values in `[0, 10)` get a leading
zero, everything else (including negatives, which never arise from a valid
schedule) prints as the plain decimal representation. -/
def fmt02 (n : Int) : String :=
  if 0 ≤ n ∧ n < 10 then "0" ++ toString n else toString n

/-! ### JSON documents (ArduinoJson values) -/

/-- A parsed JSON document, the result of a successful `deserializeJson`. -/
inductive Json where
  | jnull : Json
  | jstr : String → Json
  | jnum : Int → Json
  | jarr : List Json → Json
  | jobj : List (String × Json) → Json

/-- ArduinoJson subscript `doc[key]`: member lookup on an object, `null` on
anything else or when the key is missing. -/
def Json.lookup : Json → String → Json
  | .jobj fields, key =>
      match fields.find? (fun f => f.1 == key) with
      | some f => f.2
      | none => .jnull
  | _, _ => .jnull

/-- Conversion to `JsonArray` followed by range-for iteration: a non-array
variant converts to the null array, over which the loop body never runs. -/
def Json.getArr : Json → List Json
  | .jarr xs => xs
  | _ => []

/-- ArduinoJson `as<String>()`: a string variant yields its text, any other
variant yields its serialized text (`null` for the null variant).  The
decoders below only ever hit the `jstr` and `jnull` cases, and every
non-numeric rendering parses to the same `(0, 0)` pair, so the exact text
chosen for containers is irrelevant to every theorem in this file. -/
def Json.asString : Json → String
  | .jstr s => s
  | .jnull => "null"
  | .jnum n => toString n
  | _ => ""

/-! ### Schedule store and codec -/

/-- One entry of the schedule store: `scheduleHours[i]`, `scheduleMinutes[i]`
(C `int`s) and the `alreadyExecuted[i]` latch. -/
structure Slot where
  hour : Int
  minute : Int
  fired : Bool
deriving DecidableEq

/-- The install loop shared by `loadScheduleFromSPIFFS` (lines 104-114) and
`fetchScheduleFromAPI` (lines 150-160): reset `scheduleCount`, copy entries
in order with `alreadyExecuted = false`, and break once 6 slots are filled
(the spec's `replace`, with `MAX_SLOTS = 6`). -/
def replaceSchedule (ps : List (Int × Int)) : List Slot :=
  (ps.take 6).map (fun p => ⟨p.1, p.2, false⟩)

/-- Entry decoding in `loadScheduleFromSPIFFS` (lines 106-108): the entry
itself is taken `as<String>` and split with `substring(0,2)` / `substring(3,5)`
then `toInt` — with no validation of any kind. -/
def decodeEntryCache (v : Json) : Int × Int :=
  let t := v.asString
  (atol (substr t 0 2), atol (substr t 3 5))

/-- Entry decoding in `fetchScheduleFromAPI` (lines 152-154): identical to
the cache path except that the time text is read from the member `"time"` of
each entry. -/
def decodeEntryRemote (v : Json) : Int × Int :=
  let t := (v.lookup "time").asString
  (atol (substr t 0 2), atol (substr t 3 5))

/-- The schedule produced from a parsed cache document: iterate
`doc["times"]` and install each decoded entry. -/
def cacheDecoded (doc : Json) : List Slot :=
  replaceSchedule ((doc.lookup "times").getArr.map decodeEntryCache)

/-- The schedule produced from a parsed remote document. -/
def remoteDecoded (doc : Json) : List Slot :=
  replaceSchedule ((doc.lookup "times").getArr.map decodeEntryRemote)

/-- `saveScheduleToSPIFFS` (lines 58-81): serializes the current slots as
`{"times": ["HH:MM", ...]}` using `sprintf("%02d:%02d", h, m)`. -/
def saveScheduleToSPIFFS (sched : List Slot) : Json :=
  .jobj [("times", .jarr (sched.map (fun sl =>
    .jstr (fmt02 sl.hour ++ ":" ++ fmt02 sl.minute))))]

/-- `loadScheduleFromSPIFFS` (lines 83-117).  `cache = none` models the file
being absent, unopenable, or failing `deserializeJson`; in each of those
cases the function returns `false` before touching the schedule arrays.
On a parsed document it resets the store and installs the decoded entries
(an absent or non-array `"times"` member installs the empty schedule and
still returns `true`). -/
def loadScheduleFromSPIFFS (cache : Option Json) (sched : List Slot) :
    Bool × List Slot :=
  match cache with
  | none => (false, sched)
  | some doc => (true, cacheDecoded doc)

/-! ### Boot-time sync engine -/

/-- The mutable state touched by the sync code: the schedule store plus the
persisted cache blob (`/schedule.json`). -/
structure SyncState where
  schedule : List Slot
  cache : Option Json

/-- `fetchScheduleFromAPI` (lines 120-172).  Returns `false`, leaving both
the store and the cache untouched, when WiFi is down or when the document is
unreachable, non-200, or fails `deserializeJson` (all modelled by
`remote = none`).  On a parsed document it installs the decoded entries and
overwrites the cache via `saveScheduleToSPIFFS`. -/
def fetchScheduleFromAPI (connected : Bool) (remote : Option Json)
    (st : SyncState) : Bool × SyncState :=
  if connected then
    match remote with
    | none => (false, st)
    | some doc =>
        let sched := remoteDecoded doc
        (true, ⟨sched, some (saveScheduleToSPIFFS sched)⟩)
  else (false, st)

/-- The schedule-resolution part of `setup` (lines 279-298).  The store
starts empty (`scheduleCount = 0`).  Without WiFi the device enters AP mode
and falls back to the cache; with WiFi it tries the remote fetch and falls
back to the cache only if the fetch fails. -/
def setupModel (wifiConnected : Bool) (remote cache : Option Json) :
    SyncState :=
  if wifiConnected then
    let r := fetchScheduleFromAPI true remote ⟨[], cache⟩
    if r.1 then r.2
    else ⟨(loadScheduleFromSPIFFS r.2.cache r.2.schedule).2, r.2.cache⟩
  else ⟨(loadScheduleFromSPIFFS cache []).2, cache⟩

/-! ### Control loop -/

/-- 2^32: `millis()` and press timestamps are `unsigned long`. -/
def M32 : Nat := 4294967296

/-- C unsigned 32-bit subtraction `a - b`, as used for
`currentMillis - buttonPressStart`. -/
def usub32 (a b : Nat) : Nat :=
  (M32 + a % M32 - b % M32) % M32

/-- The loop-persistent globals of the sketch: `refillMode`,
`buttonPressStart`, `buttonHeld`, and the schedule store. -/
structure MachineState where
  refillMode : Bool
  buttonPressStart : Nat
  buttonHeld : Bool
  schedule : List Slot
deriving DecidableEq

/-- One cycle's inputs: the sampled button level (`pressed` means
`digitalRead(CONFIRM) == LOW`), `millis()`, and the RTC clock. -/
structure CycleInput where
  pressed : Bool
  millis : Nat
  hour : Int
  minute : Int
deriving DecidableEq

/-- One cycle's observable actions: whether the mode was toggled, whether
the release handler ran the stepper (manual dispense), and which slots the
schedule block dispensed (one flag per slot, in store order). -/
structure CycleOutput where
  modeToggled : Bool
  manualDispense : Bool
  schedDispenses : List Bool
deriving DecidableEq

/-- The button block of `loop` (lines 329-356): returns the updated state
together with (toggled?, manually dispensed?).  While pressed, an un-held
press is armed at the current `millis()`, and a held press whose elapsed
time reaches 5000 ms flips the mode and clears `buttonHeld`.  On release of
a held press, the stepper runs iff in refill mode with a duration in
`[1000, 5000)`; `buttonHeld` is cleared either way. -/
def buttonPhase (s : MachineState) (inp : CycleInput) :
    MachineState × Bool × Bool :=
  if inp.pressed then
    let s1 := if s.buttonHeld then s
      else { s with buttonPressStart := inp.millis, buttonHeld := true }
    if s1.buttonHeld = true ∧ 5000 ≤ usub32 inp.millis s1.buttonPressStart then
      ({ s1 with refillMode := !s1.refillMode, buttonHeld := false },
        true, false)
    else (s1, false, false)
  else if s.buttonHeld then
    ({ s with buttonHeld := false }, false,
      s.refillMode && decide (1000 ≤ usub32 inp.millis s.buttonPressStart)
        && decide (usub32 inp.millis s.buttonPressStart < 5000))
  else (s, false, false)

/-- One slot of the schedule block (lines 360-370): on an exact hour:minute
match, dispense iff the latch is clear and set it; off a match, clear the
latch. -/
def slotStep (h m : Int) (sl : Slot) : Slot × Bool :=
  if sl.hour = h ∧ sl.minute = m then
    if sl.fired then (sl, false) else ({ sl with fired := true }, true)
  else ({ sl with fired := false }, false)

/-- The schedule block over the whole store, returning the updated slots and
the per-slot dispense flags. -/
def schedStep (h m : Int) : List Slot → List Slot × List Bool
  | [] => ([], [])
  | sl :: rest =>
      ((slotStep h m sl).1 :: (schedStep h m rest).1,
        (slotStep h m sl).2 :: (schedStep h m rest).2)

/-- One full pass of `loop` (lines 307-381): button block first, then the
schedule block, which runs only when the (possibly just-toggled) mode is
Normal. -/
def loopStep (s : MachineState) (inp : CycleInput) :
    MachineState × CycleOutput :=
  let r := buttonPhase s inp
  if r.1.refillMode then (r.1, ⟨r.2.1, r.2.2, []⟩)
  else
    ({ r.1 with schedule := (schedStep inp.hour inp.minute r.1.schedule).1 },
      ⟨r.2.1, r.2.2, (schedStep inp.hour inp.minute r.1.schedule).2⟩)

/-- Iterated `loop` passes: the final state. -/
def runTrace (s : MachineState) : List CycleInput → MachineState
  | [] => s
  | inp :: rest => runTrace (loopStep s inp).1 rest

/-- Iterated `loop` passes: the cycle-by-cycle outputs. -/
def runOutputs (s : MachineState) : List CycleInput → List CycleOutput
  | [] => []
  | inp :: rest => (loopStep s inp).2 :: runOutputs (loopStep s inp).1 rest

/-- Machine state at the end of `setup`: mode Normal, no pending press, and
whatever schedule the sync engine installed. -/
def initialState (sched : List Slot) : MachineState :=
  ⟨false, 0, false, sched⟩

/-- Trajectory of one slot of the store under successive schedule-block
passes (the projection of iterated `schedStep` to a single index): the final
slot value after the given sequence of clock readings. -/
def slotFold (sl : Slot) : List (Int × Int) → Slot
  | [] => sl
  | c :: cs => slotFold (slotStep c.1 c.2 sl).1 cs

/-- Trajectory of one slot under successive schedule-block passes: the
per-pass dispense flags. -/
def slotTrace (sl : Slot) : List (Int × Int) → List Bool
  | [] => []
  | c :: cs => (slotStep c.1 c.2 sl).2 :: slotTrace (slotStep c.1 c.2 sl).1 cs

/-- The partially-malformed document named by claim C3:
`{"times":["08:00","xx:yy"]}`. -/
def badDoc : Json :=
  .jobj [("times", .jarr [.jstr "08:00", .jstr "xx:yy"])]

/-- A single continuous press, sampled at 0, 5000, 6100 and 11100 ms and
never released. -/
def holdTrace : List CycleInput :=
  [⟨true, 0, 0, 0⟩, ⟨true, 5000, 0, 0⟩, ⟨true, 6100, 0, 0⟩,
    ⟨true, 11100, 0, 0⟩]

/-- A single continuous press crossing the toggle threshold at 5000 ms,
observed still held at 6100 ms, and released at 7200 ms. -/
def holdReleaseTrace : List CycleInput :=
  [⟨true, 0, 0, 0⟩, ⟨true, 5000, 0, 0⟩, ⟨true, 6100, 0, 0⟩,
    ⟨false, 7200, 0, 0⟩]

/-- Clock at 08:00 with an 08:00 slot firing, then a 5-second hold toggling
to Refill while the clock still matches, then a cycle with the clock at
08:01. -/
def refillFreezeTrace : List CycleInput :=
  [⟨false, 0, 8, 0⟩, ⟨true, 100, 8, 0⟩, ⟨true, 5100, 8, 0⟩,
    ⟨false, 5200, 8, 1⟩]
theorem usub32_self (a : Nat) : usub32 a a = 0 := by
  unfold usub32 M32
  omega

theorem loopStep_modeToggled (s : MachineState) (inp : CycleInput) :
    (loopStep s inp).2.modeToggled = (buttonPhase s inp).2.1 := by
  simp only [loopStep]
  split <;> rfl

theorem loopStep_manualDispense (s : MachineState) (inp : CycleInput) :
    (loopStep s inp).2.manualDispense = (buttonPhase s inp).2.2 := by
  simp only [loopStep]
  split <;> rfl

theorem loopStep_refillMode (s : MachineState) (inp : CycleInput) :
    (loopStep s inp).1.refillMode = (buttonPhase s inp).1.refillMode := by
  simp only [loopStep]
  split <;> rfl

theorem loopStep_buttonHeld (s : MachineState) (inp : CycleInput) :
    (loopStep s inp).1.buttonHeld = (buttonPhase s inp).1.buttonHeld := by
  simp only [loopStep]
  split <;> rfl

theorem loopStep_buttonPressStart (s : MachineState) (inp : CycleInput) :
    (loopStep s inp).1.buttonPressStart = (buttonPhase s inp).1.buttonPressStart := by
  simp only [loopStep]
  split <;> rfl

theorem buttonPhase_schedule (s : MachineState) (inp : CycleInput) :
    (buttonPhase s inp).1.schedule = s.schedule := by
  unfold buttonPhase
  by_cases hp : inp.pressed <;> by_cases hh : s.buttonHeld <;>
    simp [hp, hh] <;> split <;> rfl

theorem buttonPhase_toggle_iff (s : MachineState) (inp : CycleInput) :
    (buttonPhase s inp).2.1 = true ↔
      (inp.pressed = true ∧ s.buttonHeld = true ∧
        5000 ≤ usub32 inp.millis s.buttonPressStart) := by
  unfold buttonPhase
  by_cases hp : inp.pressed <;> by_cases hh : s.buttonHeld <;>
    simp [hp, hh, usub32_self]
  split <;> simp_all

theorem buttonPhase_refill (s : MachineState) (inp : CycleInput) :
    (buttonPhase s inp).1.refillMode =
      (if (buttonPhase s inp).2.1 then !s.refillMode else s.refillMode) := by
  unfold buttonPhase
  by_cases hp : inp.pressed <;> by_cases hh : s.buttonHeld <;>
    simp [hp, hh, usub32_self]
  split <;> simp_all

theorem buttonPhase_toggle_clears (s : MachineState) (inp : CycleInput)
    (h : (buttonPhase s inp).2.1 = true) :
    (buttonPhase s inp).1.buttonHeld = false := by
  unfold buttonPhase at h ⊢
  by_cases hp : inp.pressed <;> by_cases hh : s.buttonHeld <;>
    simp [hp, hh] at h ⊢
  · split at h
    · split <;> simp_all
    · simp_all
  · split at h
    · split <;> simp_all
    · simp_all

theorem buttonPhase_manual (s : MachineState) (inp : CycleInput) :
    (buttonPhase s inp).2.2 =
      (!inp.pressed && s.buttonHeld && s.refillMode
        && decide (1000 ≤ usub32 inp.millis s.buttonPressStart)
        && decide (usub32 inp.millis s.buttonPressStart < 5000)) := by
  unfold buttonPhase
  by_cases hp : inp.pressed <;> by_cases hh : s.buttonHeld <;>
    simp [hp, hh]
  · split <;> rfl
  · split <;> rfl

theorem buttonPhase_press_short (s : MachineState) (inp : CycleInput)
    (hp : inp.pressed = true) (hh : s.buttonHeld = true)
    (hd : usub32 inp.millis s.buttonPressStart < 5000) :
    buttonPhase s inp = (s, false, false) := by
  unfold buttonPhase
  simp [hp, hh]
  omega

theorem buttonPhase_press_first (s : MachineState) (inp : CycleInput)
    (hp : inp.pressed = true) (hh : s.buttonHeld = false) :
    buttonPhase s inp =
      ({ s with buttonPressStart := inp.millis, buttonHeld := true },
        false, false) := by
  unfold buttonPhase
  simp [hp, hh, usub32_self]

theorem loopStep_press_short (s : MachineState) (inp : CycleInput)
    (hp : inp.pressed = true) (hh : s.buttonHeld = true)
    (hd : usub32 inp.millis s.buttonPressStart < 5000) :
    (loopStep s inp).1.refillMode = s.refillMode ∧
    (loopStep s inp).1.buttonHeld = true ∧
    (loopStep s inp).1.buttonPressStart = s.buttonPressStart := by
  rw [loopStep_refillMode, loopStep_buttonHeld, loopStep_buttonPressStart,
    buttonPhase_press_short s inp hp hh hd]
  exact ⟨rfl, hh, rfl⟩

theorem loopStep_press_first (s : MachineState) (inp : CycleInput)
    (hp : inp.pressed = true) (hh : s.buttonHeld = false) :
    (loopStep s inp).1.refillMode = s.refillMode ∧
    (loopStep s inp).1.buttonHeld = true ∧
    (loopStep s inp).1.buttonPressStart = inp.millis := by
  rw [loopStep_refillMode, loopStep_buttonHeld, loopStep_buttonPressStart,
    buttonPhase_press_first s inp hp hh]
  exact ⟨rfl, rfl, rfl⟩

theorem loopStep_unpressed_refill (s : MachineState) (inp : CycleInput)
    (hp : inp.pressed = false) :
    (loopStep s inp).1.refillMode = s.refillMode := by
  rw [loopStep_refillMode, buttonPhase_refill]
  have : (buttonPhase s inp).2.1 = false := by
    rcases h : (buttonPhase s inp).2.1 with _ | _
    · rfl
    · exact absurd ((buttonPhase_toggle_iff s inp).1 h).1 (by simp [hp])
  simp [this]

theorem heldPress_trace (p : Nat) (rest : List CycleInput) (s : MachineState)
    (hh : s.buttonHeld = true) (hs : s.buttonPressStart = p)
    (hrest : ∀ t ∈ rest, t.pressed = true ∧ usub32 t.millis p < 5000) :
    (runTrace s rest).refillMode = s.refillMode ∧
    (runTrace s rest).buttonHeld = true ∧
    (runTrace s rest).buttonPressStart = p := by
  induction rest generalizing s with
  | nil => exact ⟨rfl, hh, hs⟩
  | cons t rest ih =>
      have ht := hrest t (List.mem_cons_self t rest)
      have hstep := loopStep_press_short s t ht.1 hh (hs ▸ ht.2)
      have htail := ih (loopStep s t).1 hstep.2.1 (hstep.2.2.trans hs)
        (fun u hu => hrest u (List.mem_cons_of_mem t hu))
      refine ⟨?_, htail.2.1, htail.2.2⟩
      rw [show runTrace s (t :: rest) = runTrace (loopStep s t).1 rest from rfl] at *
      rw [htail.1, hstep.1]

theorem schedStep_fst (h m : Int) (l : List Slot) :
    (schedStep h m l).1 = l.map (fun sl => (slotStep h m sl).1) := by
  induction l with
  | nil => rfl
  | cons sl rest ih => simp [schedStep, ih]

theorem schedStep_snd (h m : Int) (l : List Slot) :
    (schedStep h m l).2 = l.map (fun sl => (slotStep h m sl).2) := by
  induction l with
  | nil => rfl
  | cons sl rest ih => simp [schedStep, ih]

theorem slotStep_hour (h m : Int) (sl : Slot) :
    (slotStep h m sl).1.hour = sl.hour := by
  unfold slotStep
  split
  · split <;> rfl
  · rfl

theorem slotStep_minute (h m : Int) (sl : Slot) :
    (slotStep h m sl).1.minute = sl.minute := by
  unfold slotStep
  split
  · split <;> rfl
  · rfl

theorem slotStep_fired (h m : Int) (sl : Slot) :
    (slotStep h m sl).1.fired = decide (sl.hour = h ∧ sl.minute = m) := by
  unfold slotStep
  split
  · split <;> simp_all
  · simp_all

theorem slotStep_dispense (h m : Int) (sl : Slot) :
    (slotStep h m sl).2 = (decide (sl.hour = h ∧ sl.minute = m) && !sl.fired) := by
  unfold slotStep
  split
  · split <;> simp_all
  · simp_all

theorem loopStep_schedule_of_normal (s : MachineState) (inp : CycleInput)
    (h : (loopStep s inp).1.refillMode = false) :
    (loopStep s inp).1.schedule =
      (schedStep inp.hour inp.minute s.schedule).1 := by
  rw [loopStep_refillMode] at h
  simp only [loopStep]
  split
  · simp_all
  · simp [buttonPhase_schedule]

theorem loopStep_schedule_of_refill (s : MachineState) (inp : CycleInput)
    (h : (loopStep s inp).1.refillMode = true) :
    (loopStep s inp).1.schedule = s.schedule := by
  rw [loopStep_refillMode] at h
  simp only [loopStep]
  split
  · simp [buttonPhase_schedule]
  · simp_all

theorem loopStep_unpressed_normal (s : MachineState) (inp : CycleInput)
    (hr : s.refillMode = false) (hh : s.buttonHeld = false)
    (hp : inp.pressed = false) :
    loopStep s inp =
      ({ s with schedule := (schedStep inp.hour inp.minute s.schedule).1 },
        ⟨false, false, (schedStep inp.hour inp.minute s.schedule).2⟩) := by
  simp only [loopStep]
  unfold buttonPhase
  simp [hp, hh, hr]

theorem runTrace_slot (l : List CycleInput) (s : MachineState) (i : Nat)
    (sl : Slot) (hr : s.refillMode = false) (hh : s.buttonHeld = false)
    (hp : ∀ t ∈ l, t.pressed = false) (hi : s.schedule[i]? = some sl) :
    (runTrace s l).refillMode = false ∧ (runTrace s l).buttonHeld = false ∧
    (runTrace s l).schedule[i]? =
      some (slotFold sl (l.map (fun t => (t.hour, t.minute)))) := by
  induction l generalizing s sl with
  | nil => exact ⟨hr, hh, by simpa [slotFold] using hi⟩
  | cons t rest ih =>
      have hstep := loopStep_unpressed_normal s t hr hh
        (hp t (List.mem_cons_self t rest))
      have h1 : (loopStep s t).1.refillMode = false := by rw [hstep]; exact hr
      have h2 : (loopStep s t).1.buttonHeld = false := by rw [hstep]; exact hh
      have h3 : (loopStep s t).1.schedule[i]? = some (slotStep t.hour t.minute sl).1 := by
        rw [hstep]
        simp only [schedStep_fst, List.getElem?_map, hi, Option.map_some']
      have := ih (loopStep s t).1 (slotStep t.hour t.minute sl).1 h1 h2
        (fun u hu => hp u (List.mem_cons_of_mem t hu)) h3
      simpa [runTrace, slotFold] using this

theorem runOutputs_slot_count (l : List CycleInput) (s : MachineState)
    (i : Nat) (sl : Slot) (hr : s.refillMode = false)
    (hh : s.buttonHeld = false) (hp : ∀ t ∈ l, t.pressed = false)
    (hi : s.schedule[i]? = some sl) :
    (runOutputs s l).countP (fun o => o.schedDispenses.getD i false) =
      (slotTrace sl (l.map (fun t => (t.hour, t.minute)))).countP (fun b => b) := by
  induction l generalizing s sl with
  | nil => rfl
  | cons t rest ih =>
      have hstep := loopStep_unpressed_normal s t hr hh
        (hp t (List.mem_cons_self t rest))
      have h1 : (loopStep s t).1.refillMode = false := by rw [hstep]; exact hr
      have h2 : (loopStep s t).1.buttonHeld = false := by rw [hstep]; exact hh
      have h3 : (loopStep s t).1.schedule[i]? = some (slotStep t.hour t.minute sl).1 := by
        rw [hstep]
        simp only [schedStep_fst, List.getElem?_map, hi, Option.map_some']
      have hout : (loopStep s t).2.schedDispenses.getD i false =
          (slotStep t.hour t.minute sl).2 := by
        rw [hstep]
        simp only [List.getD_eq_getElem?_getD, schedStep_snd, List.getElem?_map, hi,
          Option.map_some', Option.getD_some]
      have htail := ih (loopStep s t).1 (slotStep t.hour t.minute sl).1 h1 h2
        (fun u hu => hp u (List.mem_cons_of_mem t hu)) h3
      simp only [runOutputs, slotTrace, List.map_cons, List.countP_cons, htail, hout]

theorem slotTrace_match_fired (sl : Slot) (cs : List (Int × Int))
    (hf : sl.fired = true)
    (hm : ∀ c ∈ cs, sl.hour = c.1 ∧ sl.minute = c.2) :
    (slotTrace sl cs).countP (fun b => b) = 0 := by
  induction cs generalizing sl with
  | nil => rfl
  | cons c rest ih =>
      have hc := hm c (List.mem_cons_self c rest)
      have hstep : slotStep c.1 c.2 sl = (sl, false) := by
        unfold slotStep
        simp [hc.1, hc.2, hf]
      simp only [slotTrace, hstep, List.countP_cons]
      simpa using ih sl hf (fun u hu => hm u (List.mem_cons_of_mem c hu))

theorem slotTrace_match_unfired (sl : Slot) (cs : List (Int × Int))
    (hf : sl.fired = false) (hne : cs ≠ [])
    (hm : ∀ c ∈ cs, sl.hour = c.1 ∧ sl.minute = c.2) :
    (slotTrace sl cs).countP (fun b => b) = 1 := by
  cases cs with
  | nil => exact absurd rfl hne
  | cons c rest =>
      have hc := hm c (List.mem_cons_self c rest)
      have hstep : slotStep c.1 c.2 sl = ({ sl with fired := true }, true) := by
        unfold slotStep
        simp [hc.1, hc.2, hf]
      simp only [slotTrace, hstep, List.countP_cons]
      have := slotTrace_match_fired { sl with fired := true } rest rfl
        (fun u hu => hm u (List.mem_cons_of_mem c hu))
      simp [this]

theorem slotFold_hour (sl : Slot) (cs : List (Int × Int)) :
    (slotFold sl cs).hour = sl.hour ∧ (slotFold sl cs).minute = sl.minute := by
  induction cs generalizing sl with
  | nil => exact ⟨rfl, rfl⟩
  | cons c rest ih =>
      have := ih (slotStep c.1 c.2 sl).1
      simp only [slotFold]
      rw [this.1, this.2, slotStep_hour, slotStep_minute]
      exact ⟨rfl, rfl⟩

theorem slotFold_fired_getLast (sl : Slot) (cs : List (Int × Int))
    (c : Int × Int) (h : cs.getLast? = some c) :
    (slotFold sl cs).fired = decide (sl.hour = c.1 ∧ sl.minute = c.2) := by
  induction cs generalizing sl with
  | nil => simp at h
  | cons a rest ih =>
      cases rest with
      | nil =>
          simp at h
          subst h
          simp [slotFold, slotStep_fired]
      | cons b rest2 =>
          have hlast : (b :: rest2).getLast? = some c := by
            simpa [List.getLast?_cons_cons] using h
          have := ih (slotStep a.1 a.2 sl).1 hlast
          simp only [slotFold] at this ⊢
          rw [this, slotStep_hour, slotStep_minute]

theorem runOutputs_append (s : MachineState) (l1 l2 : List CycleInput) :
    runOutputs s (l1 ++ l2) =
      runOutputs s l1 ++ runOutputs (runTrace s l1) l2 := by
  induction l1 generalizing s with
  | nil => rfl
  | cons t rest ih => simp [runOutputs, runTrace, ih]

theorem runOutputs_length (s : MachineState) (l : List CycleInput) :
    (runOutputs s l).length = l.length := by
  induction l generalizing s with
  | nil => rfl
  | cons t rest ih => simp [runOutputs, ih]

theorem atol_fmt02 : ∀ n : Nat, n < 100 → atol (fmt02 (n : Int)) = (n : Int) := by
  decide

theorem fmt02_len : ∀ n : Nat, n < 100 → (fmt02 (n : Int)).length = 2 := by
  decide

theorem substr_firstTwo (a b : String) (ha : a.length = 2) (hb : b.length = 2) :
    substr (a ++ ":" ++ b) 0 2 = a := by
  obtain ⟨da⟩ := a
  obtain ⟨db⟩ := b
  have ha2 : da.length = 2 := ha
  have hb2 : db.length = 2 := hb
  obtain ⟨x1, x2, hx⟩ := List.length_eq_two.mp ha2
  obtain ⟨y1, y2, hy⟩ := List.length_eq_two.mp hb2
  subst hx
  subst hy
  rfl

theorem substr_lastTwo (a b : String) (ha : a.length = 2) (hb : b.length = 2) :
    substr (a ++ ":" ++ b) 3 5 = b := by
  obtain ⟨da⟩ := a
  obtain ⟨db⟩ := b
  have ha2 : da.length = 2 := ha
  have hb2 : db.length = 2 := hb
  obtain ⟨x1, x2, hx⟩ := List.length_eq_two.mp ha2
  obtain ⟨y1, y2, hy⟩ := List.length_eq_two.mp hb2
  subst hx
  subst hy
  rfl

theorem decode_encode_entry (h m : Int) (hh0 : 0 ≤ h) (hh : h < 24)
    (hm0 : 0 ≤ m) (hm : m < 60) :
    decodeEntryCache (.jstr (fmt02 h ++ ":" ++ fmt02 m)) = (h, m) := by
  lift h to ℕ using hh0 with hn
  lift m to ℕ using hm0 with mn
  have hn100 : hn < 100 := by
    have : hn < 24 := by exact_mod_cast hh
    omega
  have mn100 : mn < 100 := by
    have : mn < 60 := by exact_mod_cast hm
    omega
  have ha := fmt02_len hn hn100
  have hb := fmt02_len mn mn100
  unfold decodeEntryCache
  simp only [Json.asString]
  rw [substr_firstTwo _ _ ha hb, substr_lastTwo _ _ ha hb,
    atol_fmt02 hn hn100, atol_fmt02 mn mn100]

theorem lookup_times_save (sched : List Slot) :
    (saveScheduleToSPIFFS sched).lookup "times" =
      .jarr (sched.map (fun sl =>
        .jstr (fmt02 sl.hour ++ ":" ++ fmt02 sl.minute))) := by
  rfl

theorem replaceSchedule_mem (ps : List (Int × Int)) (sl : Slot)
    (h : sl ∈ replaceSchedule ps) :
    ∃ p ∈ ps, sl = ⟨p.1, p.2, false⟩ := by
  unfold replaceSchedule at h
  obtain ⟨p, hp, rfl⟩ := List.mem_map.mp h
  exact ⟨p, List.take_subset 6 ps hp, rfl⟩

theorem replaceSchedule_proj (S : List (Int × Int)) :
    (replaceSchedule S).map (fun sl => (sl.hour, sl.minute)) = S.take 6 := by
  unfold replaceSchedule
  rw [List.map_map]
  have h : ∀ p ∈ S.take 6,
      ((fun sl : Slot => (sl.hour, sl.minute)) ∘
        (fun p : Int × Int => (⟨p.1, p.2, false⟩ : Slot))) p = id p := by
    intro p hp
    rfl
  rw [List.map_congr_left h, List.map_id]

theorem replaceSchedule_again (S : List (Int × Int)) :
    replaceSchedule (S.take 6) = replaceSchedule S := by
  unfold replaceSchedule
  rw [List.take_take]
  norm_num

theorem runTrace_append (s : MachineState) (l1 l2 : List CycleInput) :
    runTrace s (l1 ++ l2) = runTrace (runTrace s l1) l2 := by
  induction l1 generalizing s with
  | nil => rfl
  | cons t rest ih => simp [runTrace, ih]

/-- Claim C1, as stated, is false on the code: `holdTrace` is a single
continuous press (never released, `pressed` at every sample) held past
5000 ms, yet the mode toggles twice — after the toggle at 5000 ms the
still-held press is re-armed as a fresh press at the 6100 ms cycle and
crosses the threshold again at 11100 ms, with no release in between. -/
theorem C1_counterexample :
    holdTrace.all (fun t => t.pressed) = true ∧
    (runOutputs (initialState []) holdTrace).countP
      (fun o => o.modeToggled) = 2 := by
  decide

/-- Claim C1 amended: (1) a cycle toggles the mode exactly when the button
is sampled pressed with a pending press whose elapsed time reaches 5000 ms;
(2) the mode flips exactly on toggling cycles; (3) a toggle clears the
pending press; (4) a press that is released before 5000 ms have elapsed
never flips the mode.  Because of (3), a hold that continues past a toggle
is re-armed as a fresh press on the next pressed cycle, so a long enough
continuous hold toggles repeatedly rather than exactly once. -/
theorem C1_amended :
    (∀ (s : MachineState) (inp : CycleInput),
      ((loopStep s inp).2.modeToggled = true ↔
        (inp.pressed = true ∧ s.buttonHeld = true ∧
          5000 ≤ usub32 inp.millis s.buttonPressStart)))
    ∧ (∀ (s : MachineState) (inp : CycleInput),
      (loopStep s inp).1.refillMode =
        (if (loopStep s inp).2.modeToggled then !s.refillMode
          else s.refillMode))
    ∧ (∀ (s : MachineState) (inp : CycleInput),
      (loopStep s inp).2.modeToggled = true →
        (loopStep s inp).1.buttonHeld = false)
    ∧ (∀ (s : MachineState) (t0 r : CycleInput) (rest : List CycleInput),
      s.buttonHeld = false → t0.pressed = true → r.pressed = false →
      (∀ t ∈ rest, t.pressed = true ∧ usub32 t.millis t0.millis < 5000) →
      (runTrace s (t0 :: rest ++ [r])).refillMode = s.refillMode) := by
  refine ⟨?_, ?_, ?_, ?_⟩
  · intro s inp
    rw [loopStep_modeToggled]
    exact buttonPhase_toggle_iff s inp
  · intro s inp
    rw [loopStep_modeToggled, loopStep_refillMode]
    exact buttonPhase_refill s inp
  · intro s inp h
    rw [loopStep_modeToggled] at h
    rw [loopStep_buttonHeld]
    exact buttonPhase_toggle_clears s inp h
  · intro s t0 r rest hh hp hr hrest
    have h1 := loopStep_press_first s t0 hp hh
    have h2 := heldPress_trace t0.millis rest (loopStep s t0).1 h1.2.1
      h1.2.2 hrest
    have hsplit : runTrace s (t0 :: rest ++ [r]) =
        (loopStep (runTrace (loopStep s t0).1 rest) r).1 := by
      show runTrace (loopStep s t0).1 (rest ++ [r]) = _
      rw [runTrace_append]
      rfl
    rw [hsplit, loopStep_unpressed_refill _ r hr, h2.1, h1.1]

/-- A witness instantiating `C1_amended`: with a press pending since 0 ms,
a pressed sample at 5000 ms toggles the mode. -/
theorem C1_amended_witness :
    (loopStep ⟨false, 0, true, []⟩ ⟨true, 5000, 0, 0⟩).2.modeToggled = true :=
  (C1_amended.1 ⟨false, 0, true, []⟩ ⟨true, 5000, 0, 0⟩).mpr
    ⟨rfl, rfl, by decide⟩

/-- Claim C2, as stated, is false on the code: `holdReleaseTrace` is a
single continuous press (pressed at samples 0, 5000 and 6100 ms, released
at 7200 ms) that crosses the toggle threshold at the 5000 ms cycle (the
second output's `modeToggled`), yet its eventual release IS evaluated by
the release handler and triggers a manual dispense (the fourth output's
`manualDispense`): the continuing hold was re-armed at 6100 ms, and the
release measures 1100 ms in the new Refill mode. -/
theorem C2_counterexample :
    (holdReleaseTrace.take 3).all (fun t => t.pressed) = true ∧
    holdReleaseTrace.getLast?.map (fun t => t.pressed) = some false ∧
    (runOutputs (initialState []) holdReleaseTrace).map
      (fun o => (o.modeToggled, o.manualDispense)) =
      [(false, false), (true, false), (false, false), (false, true)] := by
  decide

/-- Claim C2 amended: a toggle clears the pending press, so a release
sampled on the very next cycle is not evaluated by the release handler and
cannot dispense.  (If instead the hold continues into a further pressed
cycle, the press is re-armed as a fresh press and its eventual release is
evaluated normally — and can dispense.) -/
theorem C2_amended (s : MachineState) (inp1 inp2 : CycleInput)
    (htog : (loopStep s inp1).2.modeToggled = true)
    (_hrel : inp2.pressed = false) :
    (loopStep (loopStep s inp1).1 inp2).2.manualDispense = false := by
  have hheld : (loopStep s inp1).1.buttonHeld = false := by
    rw [loopStep_buttonHeld]
    exact buttonPhase_toggle_clears s inp1
      (by rwa [loopStep_modeToggled] at htog)
  rw [loopStep_manualDispense, buttonPhase_manual]
  simp [hheld]

/-- A witness instantiating `C2_amended`: a press pending since 0 ms
toggles at 5000 ms; a release sampled immediately after does not dispense. -/
theorem C2_amended_witness :
    (loopStep (loopStep ⟨false, 0, true, []⟩ ⟨true, 5000, 0, 0⟩).1
      ⟨false, 5100, 0, 0⟩).2.manualDispense = false :=
  C2_amended ⟨false, 0, true, []⟩ ⟨true, 5000, 0, 0⟩ ⟨false, 5100, 0, 0⟩
    (by decide) rfl

/-- Claim C3, as stated, is false on the code: decoding the document
`{"times":["08:00","xx:yy"]}` does not skip the malformed entry.  Via the
cache path the schedule is `[08:00, 00:00]` — `"xx"`/`"yy"` are coerced to
0 by `toInt` — and via the remote path (which reads each entry's `"time"`
member, null for a plain string) it is `[00:00, 00:00]`; neither equals the
claimed `[08:00]`. -/
theorem C3_counterexample :
    (loadScheduleFromSPIFFS (some badDoc) []).2 =
      [⟨8, 0, false⟩, ⟨0, 0, false⟩] ∧
    (fetchScheduleFromAPI true (some badDoc) ⟨[], none⟩).2.schedule =
      [⟨0, 0, false⟩, ⟨0, 0, false⟩] := by
  decide

/-- Claim C3 amended: entries of a parsed container are decoded
independently and none is ever skipped — every entry of the `"times"` array
(malformed or not) contributes exactly one slot, up to the capacity of 6;
malformed text is coerced to 0 by `toInt` rather than rejected. -/
theorem C3_amended (doc : Json) (xs : List Json)
    (hx : doc.lookup "times" = .jarr xs) :
    ((loadScheduleFromSPIFFS (some doc) []).2).length = min 6 xs.length := by
  have hload : (loadScheduleFromSPIFFS (some doc) []).2 = cacheDecoded doc := rfl
  rw [hload]
  unfold cacheDecoded
  rw [hx]
  simp [Json.getArr, replaceSchedule]

/-- A witness instantiating `C3_amended` at the partially-malformed
document: both entries yield a slot. -/
theorem C3_amended_witness :
    ((loadScheduleFromSPIFFS (some badDoc) []).2).length =
      min 6 [Json.jstr "08:00", Json.jstr "xx:yy"].length :=
  C3_amended badDoc [Json.jstr "08:00", Json.jstr "xx:yy"] rfl

/-- Claim C4, as stated, is false on the code: after `refillFreezeTrace`
(slot 08:00 fires at 08:00, then a 5-second hold toggles to Refill, then a
cycle with the clock at 08:01) the reachable state has `firedToday = true`
for the 08:00 slot even though the last cycle's clock was 08:01 — in Refill
mode the schedule block is skipped, so the flag is not forced false on the
next non-matching cycle. -/
theorem C4_counterexample :
    (runTrace (initialState [⟨8, 0, false⟩]) refillFreezeTrace).schedule =
      [⟨8, 0, true⟩] ∧
    (runTrace (initialState [⟨8, 0, false⟩]) refillFreezeTrace).refillMode
      = true ∧
    refillFreezeTrace.getLast?.map (fun t => (t.hour, t.minute)) =
      some (8, 1) := by
  decide

/-- Claim C4 amended: on every cycle that ends in Normal mode, each slot's
latch is true only if that cycle's clock matches the slot, and a
non-matching clock forces it false in that same cycle; on a cycle that ends
in Refill mode the schedule block is skipped and all slots (latches
included) are left untouched. -/
theorem C4_amended (s : MachineState) (inp : CycleInput) :
    ((loopStep s inp).1.refillMode = false →
      ∀ (i : Nat) (sl : Slot), (loopStep s inp).1.schedule[i]? = some sl →
        (sl.fired = true → sl.hour = inp.hour ∧ sl.minute = inp.minute) ∧
        (¬(sl.hour = inp.hour ∧ sl.minute = inp.minute) →
          sl.fired = false))
    ∧ ((loopStep s inp).1.refillMode = true →
      (loopStep s inp).1.schedule = s.schedule) := by
  constructor
  · intro hnorm i sl hget
    rw [loopStep_schedule_of_normal s inp hnorm, schedStep_fst,
      List.getElem?_map] at hget
    cases h0 : s.schedule[i]? with
    | none => rw [h0] at hget; simp at hget
    | some sl0 =>
        rw [h0] at hget
        simp only [Option.map_some', Option.some.injEq] at hget
        have hhour : sl.hour = sl0.hour := by
          rw [← hget, slotStep_hour]
        have hmin : sl.minute = sl0.minute := by
          rw [← hget, slotStep_minute]
        have hfired : sl.fired =
            decide (sl0.hour = inp.hour ∧ sl0.minute = inp.minute) := by
          rw [← hget, slotStep_fired]
        constructor
        · intro hf
          rw [hfired] at hf
          have := of_decide_eq_true hf
          rw [hhour, hmin]
          exact this
        · intro hnm
          rw [hhour, hmin] at hnm
          rw [hfired]
          simpa using hnm
  · intro href
    exact loopStep_schedule_of_refill s inp href

/-- A witness instantiating `C4_amended`: a Normal-mode cycle with the
clock at 08:01 leaves the 08:00 slot's latch false. -/
theorem C4_amended_witness : (⟨8, 0, false⟩ : Slot).fired = false :=
  ((C4_amended ⟨false, 0, false, [⟨8, 0, false⟩]⟩ ⟨false, 0, 8, 1⟩).1
    (by decide) 0 ⟨8, 0, false⟩ (by decide)).2 (by decide)

/-- Claim C5 confirmed: the release handler dispenses exactly when the
cycle samples the button released with a press pending, the controller is
in Refill mode, and the measured duration lies in `[1000, 5000)` ms — in
particular never in Normal mode, never for durations of 999 ms or less, and
never for durations of 5000 ms or more. -/
theorem C5_thm (s : MachineState) (inp : CycleInput) :
    (loopStep s inp).2.manualDispense =
      (!inp.pressed && s.buttonHeld && s.refillMode
        && decide (1000 ≤ usub32 inp.millis s.buttonPressStart)
        && decide (usub32 inp.millis s.buttonPressStart < 5000)) := by
  rw [loopStep_manualDispense]
  exact buttonPhase_manual s inp

/-- A witness instantiating `C5_thm`: in Refill mode, a press pending since
0 ms and released at 1000 ms dispenses. -/
theorem C5_thm_witness :
    (loopStep ⟨true, 0, true, []⟩ ⟨false, 1000, 0, 0⟩).2.manualDispense
      = true := by
  rw [C5_thm ⟨true, 0, true, []⟩ ⟨false, 1000, 0, 0⟩]
  decide

/-- Claim C6 confirmed: the boot-time schedule source priority is remote
fetch success, then persisted cache, then empty.  On a successful remote
fetch the store holds the decoded remote content and the cache is
overwritten with its encoding; when the remote is unavailable (no WiFi, or
no fetchable/parseable document) and the cache parses, the store holds the
decoded cache content and the cache is untouched; with neither source the
store stays empty. -/
theorem C6_thm (w : Bool) (remote cache : Option Json) :
    (∀ j, w = true → remote = some j →
      (setupModel w remote cache).schedule = remoteDecoded j ∧
      (setupModel w remote cache).cache =
        some (saveScheduleToSPIFFS (remoteDecoded j)))
    ∧ ((w = false ∨ remote = none) → ∀ j, cache = some j →
      (setupModel w remote cache).schedule = cacheDecoded j ∧
      (setupModel w remote cache).cache = cache)
    ∧ ((w = false ∨ remote = none) → cache = none →
      (setupModel w remote cache).schedule = [] ∧
      (setupModel w remote cache).cache = none) := by
  refine ⟨?_, ?_, ?_⟩
  · rintro j rfl rfl
    exact ⟨rfl, rfl⟩
  · rintro (rfl | rfl) j rfl
    · exact ⟨rfl, rfl⟩
    · cases w
      · exact ⟨rfl, rfl⟩
      · exact ⟨rfl, rfl⟩
  · rintro (rfl | rfl) rfl
    · exact ⟨rfl, rfl⟩
    · cases w
      · exact ⟨rfl, rfl⟩
      · exact ⟨rfl, rfl⟩

/-- A witness instantiating `C6_thm`: a successful remote fetch of
`{"times":[{"time":"08:00"}]}` installs the 08:00 slot. -/
theorem C6_thm_witness :
    (setupModel true (some (.jobj [("times",
      .jarr [.jobj [("time", .jstr "08:00")]])])) none).schedule =
      [⟨8, 0, false⟩] := by
  rw [((C6_thm true (some (.jobj [("times",
    .jarr [.jobj [("time", .jstr "08:00")]])])) none).1
    (.jobj [("times", .jarr [.jobj [("time", .jstr "08:00")]])]) rfl rfl).1]
  decide

/-- Claim C7 confirmed: with connectivity, the fetch fails only when there
is no parseable document at all (absent/unreachable/unparseable container,
modelled by `none`) — a parseable container always succeeds no matter what
its individual entries contain — and on such a failure the sync state
(cache included) is untouched and `setup` falls back to loading the cache,
without overwriting it. -/
theorem C7_thm (j : Json) (c : Option Json) (st : SyncState) :
    (fetchScheduleFromAPI true (some j) st).1 = true
    ∧ (fetchScheduleFromAPI true none st).1 = false
    ∧ (fetchScheduleFromAPI true none st).2 = st
    ∧ (setupModel true none c).cache = c
    ∧ (setupModel true none c).schedule = (loadScheduleFromSPIFFS c []).2 :=
  ⟨rfl, rfl, rfl, rfl, rfl⟩

/-- Claim C10 confirmed: a parsed document with more than `MAX_SLOTS = 6`
entries is silently truncated to exactly its first 6 entries in input
order, and every load path leaves the store with at most 6 slots. -/
theorem C10_thm (xs : List Json) (hgt : 6 < xs.length) :
    (loadScheduleFromSPIFFS (some (.jobj [("times", .jarr xs)])) []).2 =
      (xs.take 6).map (fun v =>
        ⟨(decodeEntryCache v).1, (decodeEntryCache v).2, false⟩)
    ∧ ((loadScheduleFromSPIFFS (some (.jobj [("times", .jarr xs)]))
        []).2).length = 6
    ∧ (∀ (c : Option Json) (sch : List Slot), sch.length ≤ 6 →
        ((loadScheduleFromSPIFFS c sch).2).length ≤ 6)
    ∧ (∀ (conn : Bool) (r : Option Json) (st : SyncState),
        st.schedule.length ≤ 6 →
        ((fetchScheduleFromAPI conn r st).2.schedule).length ≤ 6) := by
  have h1 : (loadScheduleFromSPIFFS (some (.jobj [("times", .jarr xs)]))
      []).2 = replaceSchedule (xs.map decodeEntryCache) := rfl
  refine ⟨?_, ?_, ?_, ?_⟩
  · rw [h1]
    unfold replaceSchedule
    rw [← List.map_take, List.map_map]
    rfl
  · rw [h1]
    unfold replaceSchedule
    simp only [List.length_map, List.length_take]
    omega
  · intro c sch hs
    cases c with
    | none => exact hs
    | some doc =>
        show (cacheDecoded doc).length ≤ 6
        unfold cacheDecoded replaceSchedule
        simp only [List.length_map, List.length_take]
        omega
  · intro conn r st hs
    cases conn with
    | false => exact hs
    | true =>
        cases r with
        | none => exact hs
        | some doc =>
            show (remoteDecoded doc).length ≤ 6
            unfold remoteDecoded replaceSchedule
            simp only [List.length_map, List.length_take]
            omega

/-- A witness instantiating `C10_thm`: a 7-entry document installs exactly
6 slots. -/
theorem C10_thm_witness :
    ((loadScheduleFromSPIFFS (some (.jobj [("times",
      .jarr [.jstr "01:02", .jstr "01:02", .jstr "01:02", .jstr "01:02",
        .jstr "01:02", .jstr "01:02", .jstr "01:02"])])) []).2).length = 6 :=
  (C10_thm [.jstr "01:02", .jstr "01:02", .jstr "01:02", .jstr "01:02",
    .jstr "01:02", .jstr "01:02", .jstr "01:02"] (by decide)).2.1

/-- Claim C9 confirmed: for a schedule of at most 6 slots built from valid
hour/minute pairs, encoding to the cache representation and decoding it
back reproduces the schedule exactly. -/
theorem C9_thm (S : List (Int × Int)) (_hlen : S.length ≤ 6)
    (hvalid : ∀ p ∈ S, 0 ≤ p.1 ∧ p.1 < 24 ∧ 0 ≤ p.2 ∧ p.2 < 60) :
    (loadScheduleFromSPIFFS
      (some (saveScheduleToSPIFFS (replaceSchedule S))) []).2 =
      replaceSchedule S := by
  have h1 : (loadScheduleFromSPIFFS
      (some (saveScheduleToSPIFFS (replaceSchedule S))) []).2 =
      cacheDecoded (saveScheduleToSPIFFS (replaceSchedule S)) := rfl
  rw [h1]
  unfold cacheDecoded
  rw [lookup_times_save]
  simp only [Json.getArr, List.map_map]
  have hmap : (replaceSchedule S).map
      (decodeEntryCache ∘ fun sl =>
        Json.jstr (fmt02 sl.hour ++ ":" ++ fmt02 sl.minute)) =
      (replaceSchedule S).map (fun sl => (sl.hour, sl.minute)) := by
    apply List.map_congr_left
    intro sl hsl
    obtain ⟨p, hp, rfl⟩ := replaceSchedule_mem S sl hsl
    obtain ⟨b1, b2, b3, b4⟩ := hvalid p hp
    show decodeEntryCache (Json.jstr (fmt02 p.1 ++ ":" ++ fmt02 p.2)) =
      (p.1, p.2)
    exact decode_encode_entry p.1 p.2 b1 b2 b3 b4
  rw [hmap, replaceSchedule_proj, replaceSchedule_again]

/-- A witness instantiating `C9_thm` at the two-slot schedule
08:00, 12:30. -/
theorem C9_thm_witness :
    (loadScheduleFromSPIFFS (some (saveScheduleToSPIFFS
      (replaceSchedule [(8, 0), (12, 30)]))) []).2 =
      replaceSchedule [(8, 0), (12, 30)] :=
  C9_thm [(8, 0), (12, 30)] (by decide) (by decide)

/-- Claim C8 confirmed: for a slot installed via the replace loop, over any
stretch of cycles in which the button is never pressed (so the controller
stays in Normal mode), the schedule block dispenses that slot exactly once
per contiguous run of cycles whose clock equals the slot's hour:minute —
here stated for a run preceded by a non-matching cycle (or by nothing), so
it also exhibits automatic re-arming after the clock moves off the
minute. -/
theorem C8_thm (S : List (Int × Int)) (i : Nat) (h m : Int)
    (pre run : List CycleInput)
    (hslot : (replaceSchedule S)[i]? = some ⟨h, m, false⟩)
    (hpress : ∀ t ∈ pre ++ run, t.pressed = false)
    (hrun : ∀ t ∈ run, t.hour = h ∧ t.minute = m)
    (hne : run ≠ [])
    (hpre : pre.getLast?.all
      (fun t => decide (¬(t.hour = h ∧ t.minute = m))) = true) :
    ((runOutputs (initialState (replaceSchedule S)) (pre ++ run)).drop
      pre.length).countP (fun o => o.schedDispenses.getD i false) = 1 := by
  have hpressPre : ∀ t ∈ pre, t.pressed = false :=
    fun t ht => hpress t (List.mem_append_left _ ht)
  have hpressRun : ∀ t ∈ run, t.pressed = false :=
    fun t ht => hpress t (List.mem_append_right _ ht)
  have hs0i : (initialState (replaceSchedule S)).schedule[i]? =
      some ⟨h, m, false⟩ := hslot
  rw [runOutputs_append,
    show pre.length = (runOutputs (initialState (replaceSchedule S)) pre).length
      from (runOutputs_length _ pre).symm,
    List.drop_left]
  have hmid := runTrace_slot pre (initialState (replaceSchedule S)) i
    ⟨h, m, false⟩ rfl rfl hpressPre hs0i
  have hhm := slotFold_hour ⟨h, m, false⟩
    (pre.map (fun t => (t.hour, t.minute)))
  have hfiredmid :
      (slotFold ⟨h, m, false⟩ (pre.map (fun t => (t.hour, t.minute)))).fired
        = false := by
    cases hply : pre.getLast? with
    | none =>
        have hpnil : pre = [] := by
          cases pre with
          | nil => rfl
          | cons a l => simp at hply
        subst hpnil
        rfl
    | some t =>
        have hmapLast : (pre.map (fun t => (t.hour, t.minute))).getLast? =
            some (t.hour, t.minute) := by
          rw [List.getLast?_map, hply]
          rfl
        rw [slotFold_fired_getLast _ _ _ hmapLast]
        rw [hply] at hpre
        simp only [Option.all_some, decide_eq_true_eq] at hpre
        simp only [decide_eq_false_iff_not]
        intro hcon
        exact hpre ⟨hcon.1.symm, hcon.2.symm⟩
  rw [runOutputs_slot_count run (runTrace (initialState (replaceSchedule S)) pre)
    i _ hmid.1 hmid.2.1 hpressRun hmid.2.2]
  apply slotTrace_match_unfired _ _ hfiredmid
  · intro hmapnil
    apply hne
    cases run with
    | nil => rfl
    | cons a l => simp at hmapnil
  · intro c hc
    obtain ⟨t, ht, rfl⟩ := List.mem_map.mp hc
    rw [hhm.1, hhm.2]
    exact ⟨(hrun t ht).1.symm, (hrun t ht).2.symm⟩

/-- A witness instantiating `C8_thm`: slot 08:00, one preceding cycle at
07:59, then two matching cycles at 08:00 — exactly one dispense in the
matching run. -/
theorem C8_thm_witness :
    ((runOutputs (initialState (replaceSchedule [(8, 0)]))
      ([⟨false, 0, 7, 59⟩] ++ [⟨false, 100, 8, 0⟩, ⟨false, 200, 8, 0⟩])).drop
      [(⟨false, 0, 7, 59⟩ : CycleInput)].length).countP
      (fun o => o.schedDispenses.getD 0 false) = 1 :=
  C8_thm [(8, 0)] 0 8 0 [⟨false, 0, 7, 59⟩]
    [⟨false, 100, 8, 0⟩, ⟨false, 200, 8, 0⟩] (by decide) (by decide)
    (by decide) (by decide) (by decide)
